import Mathlib

/-!
Verification of the variant-intel repository's evidence normalization and
aggregation engine (`src/mutantscope_demo/app/interpret.py`,
`src/mutantscope_demo/app/app.py`, `src/mutantscope_demo/app/protein_track.py`).

The Python code is shallowly embedded: JSON payload values become the
inductive `JValue`; Python dicts become association lists with first-match
lookup; Python floats are modelled as exact rationals (`ℚ`); fallible
numeric parsing returns `Option ℚ`.  Modelling notes appear as comments on
each definition next to the source lines it embeds.
-/

set_option maxHeartbeats 1000000

namespace VariantIntel

/-- A JSON-like payload value, as handled by `interpret.py`.  Python `None`
is `null`; numbers are modelled as exact rationals (Python floats are
binary approximations of these; no claim depends on the difference). -/
inductive JValue where
  | null : JValue
  | str : String → JValue
  | num : ℚ → JValue
  | arr : List JValue → JValue
  | obj : List (String × JValue) → JValue

/-- A Python dict, modelled as an association list (key order = insertion
order; lookup takes the first binding, and well-formed payloads have unique
keys). -/
abbrev JObj := List (String × JValue)

/-- Dict lookup: `d[k]` / `d.get(k)` returning `none` for a missing key. -/
def jLookup : JObj → String → Option JValue
  | [], _ => none
  | (k, v) :: rest, key => if k = key then some v else jLookup rest key

/-- `d.get(k)` with Python's `None` default made explicit as `JValue.null`. -/
def jGetD (d : JObj) (k : String) : JValue :=
  (jLookup d k).getD .null

/-- The emptiness test of `interpret._get_first` (line 5):
`d[k] not in (None, "", [], \x7b\x7d)` is false exactly on these values. -/
def isEmptyVal : JValue → Bool
  | .null => true
  | .str s => s = ""
  | .num _ => false
  | .arr xs => xs.isEmpty
  | .obj fs => fs.isEmpty

/-- Python truthiness of a payload value (`if x:` / `x or y`). -/
def truthy : JValue → Bool
  | .null => false
  | .str s => !(s = "")
  | .num q => !(q = 0)
  | .arr xs => !xs.isEmpty
  | .obj fs => !fs.isEmpty

/-- Python `x or y` on payload values. -/
def pyOr (a b : JValue) : JValue :=
  if truthy a then a else b

/-- `interpret._get_first(d, *keys)` (interpret.py lines 3-7): return the
value of the first key that is present and not emptyish; every call site
uses the default `None`, modelled as `none`. -/
def getFirst (d : JObj) : List String → Option JValue
  | [] => none
  | k :: ks =>
    match jLookup d k with
    | some v => if isEmptyVal v then getFirst d ks else some v
    | none => getFirst d ks

/-- Rendering of a rational as decimal digit text, used by `pyStr` for
`str(number)`.  An integer renders without a fractional part (payload
integers such as PubMed ids round-trip exactly); a non-integer renders as
an exact fraction, a simplification of Python float formatting that no
claim depends on. -/
def ratRepr (q : ℚ) : String :=
  (if q.num < 0 then "-" else "")
    ++ Nat.repr q.num.natAbs
    ++ (if q.den = 1 then "" else "/" ++ Nat.repr q.den)

/-- Python `str(x)` on payload values.  `str(None) = "None"`.  Container
rendering is abstracted to fixed bracketed placeholders (never empty, never
numeric text); no claim depends on the rendering of containers. -/
def pyStr : JValue → String
  | .null => "None"
  | .str s => s
  | .num q => ratRepr q
  | .arr _ => "[list]"
  | .obj _ => "[dict]"

/-- Numeric value of a run of decimal digit characters. -/
def digitsToNat (cs : List Char) : ℕ :=
  cs.foldl (fun a c => a * 10 + (c.toNat - 48)) 0

/-- Python `str.lower()`: character-wise ASCII case folding (the code only
lower-cases ASCII label text). -/
def pyLower (s : String) : String :=
  String.mk (s.data.map Char.toLower)

/-- The whitespace recognized by Python `str.strip()`. -/
def isPySpace (c : Char) : Bool :=
  c = ' ' || c = '\t' || c = '\n' || c = '\r' || c = '\x0b' || c = '\x0c'

/-- Python `str.strip()`: drop leading and trailing whitespace. -/
def pyStrip (s : String) : String :=
  String.mk (((s.data.dropWhile isPySpace).reverse.dropWhile isPySpace).reverse)

/-- Python `s.split(",")` on the character list: split at every comma,
keeping empty pieces (`"".split(",") = [""]`). -/
def splitOnComma : List Char → List (List Char)
  | [] => [[]]
  | c :: cs =>
    if c = ',' then [] :: splitOnComma cs
    else
      match splitOnComma cs with
      | t :: ts => (c :: t) :: ts
      | [] => [[c]]

/-- Python `s.replace("_", " ")` as used on GO term text (interpret.py
line 88): character-wise since both pattern and replacement are single
characters. -/
def replaceUnderscore (s : String) : String :=
  String.mk (s.data.map (fun c => if c = '_' then ' ' else c))

/-- Leading sign of a Python float literal: `-` / `+` / none. -/
def takeSign : List Char → Bool × List Char
  | [] => (false, [])
  | c :: cs =>
    if c = '-' then (true, cs)
    else if c = '+' then (false, cs)
    else (false, c :: cs)

/-- Mantissa of a float literal: digits, optionally a point and more
digits, with at least one digit overall.  Returns
(integer digits, fraction digits, rest). -/
def parseMantissa (cs : List Char) : Option (List Char × List Char × List Char) :=
  let ip := cs.takeWhile Char.isDigit
  let rest := cs.dropWhile Char.isDigit
  if rest.head? = some '.' then
    let fp := rest.tail.takeWhile Char.isDigit
    let rest3 := rest.tail.dropWhile Char.isDigit
    if ip.isEmpty && fp.isEmpty then none else some (ip, fp, rest3)
  else if ip.isEmpty then none else some (ip, [], rest)

/-- Optional exponent suffix `e`/`E`, sign, digits; must consume the whole
remaining input.  Returns (exponent is negative, exponent digits). -/
def parseExpTail (cs : List Char) : Option (Bool × List Char) :=
  match cs with
  | [] => some (false, [])
  | 'e' :: rest =>
    let (en, rest2) := takeSign rest
    let ed := rest2.takeWhile Char.isDigit
    if ed.isEmpty || !(rest2.dropWhile Char.isDigit).isEmpty then none
    else some (en, ed)
  | 'E' :: rest =>
    let (en, rest2) := takeSign rest
    let ed := rest2.takeWhile Char.isDigit
    if ed.isEmpty || !(rest2.dropWhile Char.isDigit).isEmpty then none
    else some (en, ed)
  | _ => none

/-- Python `float(string)`: strip surrounding whitespace, then parse an
optionally signed decimal literal with optional fraction and exponent;
any other input fails.  (Non-finite literals such as `inf`/`nan` are not
modelled as numbers; no claim involves them.) -/
def parseFloat (s : String) : Option ℚ :=
  let cs := (pyStrip s).data
  let neg := (takeSign cs).1
  let cs1 := (takeSign cs).2
  match parseMantissa cs1 with
  | none => none
  | some (ip, fp, rest) =>
    match parseExpTail rest with
    | none => none
    | some (en, ed) =>
      let n : ℤ := digitsToNat (ip ++ fp)
      let e : ℤ := (if en then -(digitsToNat ed : ℤ) else (digitsToNat ed : ℤ)) - fp.length
      let v : ℚ :=
        if e ≥ 0 then ((n * ((10 : ℕ) ^ e.toNat : ℕ) : ℤ) : ℚ)
        else Rat.divInt n ((10 : ℕ) ^ (-e).toNat : ℕ)
      some (if neg then -v else v)

/-- `interpret._to_float(x)` (interpret.py lines 9-13): `float(str(x))`,
`None` on any failure.  A numeric value stringifies and re-parses to
itself, so that case is taken directly. -/
def toFloat : JValue → Option ℚ
  | .num q => some q
  | v => parseFloat (pyStr v)

/-- `_to_float` applied to an optional dict lookup: a missing key is Python
`None`, and `float(str(None))` fails. -/
def toFloatOpt (v : Option JValue) : Option ℚ :=
  toFloat (v.getD .null)

/-- The seen-set loop shared by `_to_str_list`, `_split_pubmed_values` and
`uniq` in interpret.py: walk the list left to right, appending an element
the first time it is seen.  The accumulator doubles as the seen set (the
Python code keeps a separate `set` purely for speed). -/
def dedupGo (acc : List String) : List String → List String
  | [] => acc
  | x :: xs => if x ∈ acc then dedupGo acc xs else dedupGo (acc ++ [x]) xs

/-- De-duplication preserving first-seen order ("de-dupe, keep order"). -/
def dedup (xs : List String) : List String := dedupGo [] xs

/-- The `uniq` helper of `summarize_variant` (interpret.py line 134):
`list(dict.fromkeys([x for x in xs if x]))` — drop falsy (empty) strings,
then de-duplicate keeping first-seen order. -/
def uniq (xs : List String) : List String :=
  dedup (xs.filter (fun x => !(x = "")))

/-- Iterating a payload value as a list: `x or []` followed by a `for`
loop.  Only an actual (non-empty) list yields elements; `None` and empty
containers yield nothing.  (Python would iterate the characters of a
non-empty string or the keys of a dict, or raise on a number; payloads
store lists in these fields and no claim depends on that corner.) -/
def asList : JValue → List JValue
  | .arr xs => xs
  | _ => []

/-- Viewing a payload value as a dict for key access; payload records are
objects, and `.get` on anything else would raise in Python (no claim
exercises that corner). -/
def asObj : JValue → JObj
  | .obj fs => fs
  | _ => []

/-- `interpret._to_str_list(items)` (interpret.py lines 15-33): skip
`None`; for a dict take `name or description or go_term` (Python `or`
chain over possibly-missing keys), skipping when that is `None`; otherwise
stringify; finally de-duplicate keeping order. -/
def toStrList (items : JValue) : List String :=
  dedup ((asList items).flatMap (fun it =>
    match it with
    | .null => []
    | .obj fs =>
      let cand := pyOr (jGetD fs "name") (pyOr (jGetD fs "description") (jGetD fs "go_term"))
      match cand with
      | .null => []
      | c => [pyStr c]
    | v => [pyStr v]))

/-- Comma-splitting of one pubmed value string: split on ",", strip each
token, keep non-empty tokens (interpret.py lines 41, 82-85). -/
def splitCommaStrip (s : String) : List String :=
  (((splitOnComma s.data).map (fun cs => pyStrip (String.mk cs)))).filter (fun x => !(x = ""))

/-- `interpret._split_pubmed_values(values)` (interpret.py lines 35-48) as
called from `summarize_variant`: every collected value is already a string
(the integer branch applies to raw payload values, which the call site has
already passed through `str`), so each is comma-split and stripped, then
the result is de-duplicated keeping order. -/
def splitPubmedValues (values : List String) : List String :=
  dedup (values.flatMap splitCommaStrip)

/-- The canonical flat summary returned by `summarize_variant`
(interpret.py lines 136-162).  Raw first-match fields keep their payload
value; numeric fields have been through `_to_float`; the nested
`alphamissense` / `sift` / `polyphen` / `conservation` sub-dicts are
flattened into their two components each. -/
structure Summary where
  gene : Option JValue
  hgvsg : Option JValue
  hgvsp : Option JValue
  consequence : Option JValue
  impact : Option JValue
  protein_id : Option JValue
  clinvar_significance : List String
  clinvar_review : List String
  phenotypes : List String
  am_class : Option JValue
  am_score : Option ℚ
  sift_pred : Option JValue
  sift_score : Option ℚ
  polyphen_pred : Option JValue
  polyphen_score : Option ℚ
  cadd_phred : Option ℚ
  revel : Option ℚ
  gnomad_af : Option ℚ
  gnomad_popmax_af : Option ℚ
  gerp : Option ℚ
  phastcons100way : Option ℚ
  domains : List String
  go_terms : List String
  pubmed_ids : List String
  interactors : List String

/-- Result of normalization: either the "no data" error record
`\x7b"error": "Empty VEP response."\x7d` — which carries no other field —
or the populated summary. -/
inductive SummarizeResult where
  | error : String → SummarizeResult
  | ok : Summary → SummarizeResult

/-- The body of `interpret.summarize_variant` on the first payload record
`v0` (interpret.py lines 53-162); `summarizeVariant` below adds the
empty-payload branch.

Modelling notes kept 1:1 with the source:
* the `if tcs:` guards collapse into reading from `tc0 := first transcript
  consequence as a dict, [] when there is none`: every guarded extraction
  yields the same absent/empty result on an empty dict that the skipped
  branch leaves in place;
* the colocated-variant loop runs before the transcript-level ClinVar
  fallback, so `clinvar_signifs` concatenates in that order (lines 90-105);
* phenotype/pubmed collection walks the same phenotype entries
  (lines 76-85); pubmed ids from colocated variants are appended afterwards
  (lines 95-96); the combined list goes through `_split_pubmed_values` and
  `uniq` (line 160). -/
def buildSummary (v0 : JValue) : Summary :=
    let v := asObj v0
    let impact := getFirst v ["impact"]
    let consequence := getFirst v ["most_severe_consequence"]
    let hgvsg := getFirst v ["input", "id"]
    let tcs := asList (pyOr (jGetD v "transcript_consequences") (.arr []))
    let tc0 : JObj := match tcs with
      | t :: _ => asObj t
      | [] => []
    let gene := getFirst tc0 ["gene_symbol", "genename"]
    let hgvsp := getFirst tc0 ["hgvsp", "hgvsp_vep", "hgvsp_snpeff"]
    let protId := getFirst tc0 ["protein_id", "ensembl_proteinid"]
    let phenEntries := asList (pyOr (jGetD tc0 "phenotypes") (.arr []))
    let phenotypes := phenEntries.flatMap (fun p =>
      match getFirst (asObj p) ["phenotype", "description"] with
      | some ph => if truthy ph then [pyStr ph] else []
      | none => [])
    let pubmed1 := phenEntries.flatMap (fun p =>
      match getFirst (asObj p) ["pubmed_id"] with
      | some pm => if truthy pm then splitCommaStrip (pyStr pm) else []
      | none => [])
    let domains := toStrList (jGetD tc0 "domains")
    let goTerms := (toStrList (jGetD tc0 "go")).map replaceUnderscore
    let cvs := asList (pyOr (jGetD v "colocated_variants") (.arr []))
    let clinSigs1 := cvs.flatMap (fun cv =>
      match jLookup (asObj cv) "clin_sig" with
      | some (.arr ss) => ss.flatMap (fun sv => if truthy sv then [pyLower (pyStr sv)] else [])
      | _ => [])
    let pubmed2 := cvs.flatMap (fun cv =>
      (asList (pyOr (jGetD (asObj cv) "pubmed") (.arr []))).map pyStr)
    let clinSigs2 := match getFirst tc0 ["clinvar_clnsig", "clinvar_clin_sig"] with
      | some cvSig => if truthy cvSig then [pyLower (pyStr cvSig)] else []
      | none => []
    let clinRevs := match getFirst tc0 ["clinvar_review", "review_status"] with
      | some cvRev => if truthy cvRev then [pyStr cvRev] else []
      | none => []
    let am := asObj (pyOr (jGetD tc0 "alphamissense") (.obj []))
    let amClass := jLookup am "am_class"
    let amScore := toFloatOpt (jLookup am "am_pathogenicity")
    let siftPred := getFirst tc0 ["sift_prediction", "sift_pred"]
    let siftScore := toFloatOpt (getFirst tc0 ["sift_score", "sift4g_score"])
    let polyphenPred := getFirst tc0 ["polyphen_prediction"]
    let polyphenScore := toFloatOpt (getFirst tc0 ["polyphen_score"])
    let caddPhred := toFloatOpt (getFirst tc0 ["cadd_phred"])
    let revelScore := toFloatOpt (getFirst tc0 ["revel", "revel_score"])
    let af := toFloatOpt (getFirst tc0 ["gnomad4.1_joint_af"])
    let popmaxAf := toFloatOpt (getFirst tc0 ["gnomad4.1_joint_popmax_af"])
    let gerp := toFloatOpt (getFirst tc0 ["gerp++_nr", "gerp_91_mammals"])
    let phastcons := toFloatOpt (getFirst tc0 ["phastcons100way_vertebrate"])
    let intact := pyOr (jGetD v "intact") (jGetD v "IntAct")
    let interactors := match intact with
      | .arr xs =>
        if xs.isEmpty then []
        else (xs.take 20).flatMap (fun it =>
          match getFirst (asObj it) ["interactor_xref", "interactor", "label", "name", "id"] with
          | some nm => if truthy nm then [pyStr nm] else []
          | none => [])
      | _ => []
    {
      gene := gene
      hgvsg := hgvsg
      hgvsp := hgvsp
      consequence := consequence
      impact := impact
      protein_id := protId
      clinvar_significance := uniq (clinSigs1 ++ clinSigs2)
      clinvar_review := uniq clinRevs
      phenotypes := uniq phenotypes
      am_class := amClass
      am_score := amScore
      sift_pred := siftPred
      sift_score := siftScore
      polyphen_pred := polyphenPred
      polyphen_score := polyphenScore
      cadd_phred := caddPhred
      revel := revelScore
      gnomad_af := af
      gnomad_popmax_af := popmaxAf
      gerp := gerp
      phastcons100way := phastcons
      domains := uniq domains
      go_terms := uniq goTerms
      pubmed_ids := uniq (splitPubmedValues (pubmed1 ++ pubmed2))
      interactors := uniq interactors }

/-- `interpret.summarize_variant(vep_json)` (interpret.py lines 50-162):
the "no data" error record for an empty payload sequence (lines 51-52) —
which carries nothing but the message — otherwise the summary built from
the first record (line 53). -/
def summarizeVariant (vepJson : List JValue) : SummarizeResult :=
  match vepJson with
  | [] => .error "Empty VEP response."
  | v0 :: _ => .ok (buildSummary v0)

/-- Substring test on character lists: Python's `needle in haystack`. -/
def listContainsSub (needle : List Char) : List Char → Bool
  | [] => needle.isEmpty
  | c :: cs => needle.isPrefixOf (c :: cs) || listContainsSub needle cs

/-- Python `needle in hay` for strings. -/
def strContains (hay needle : String) : Bool :=
  listContainsSub needle.data hay.data

/-- Python `int(x)` on a float: truncation toward zero (`Int.tdiv`). -/
def pyInt (q : ℚ) : ℤ :=
  q.num.tdiv q.den

/-- Rendering of an integer as text, Python `str(int)`. -/
def intRepr (n : ℤ) : String :=
  (if n < 0 then "-" else "") ++ Nat.repr n.natAbs

/-- Rendering of a float-or-None inside an f-string: `None` or the number. -/
def optValStr : Option ℚ → String
  | none => "None"
  | some q => ratRepr q

/-- Per-source categorical assessment of an evidence row. -/
inductive Assessment where
  | Pathogenic : Assessment
  | Uncertain : Assessment
  | Benign : Assessment
deriving DecidableEq

/-- One row of the evidence table built by `compute_pathogenicity_index`:
Source, Value (rendered as text — the UI casts every value to `str`),
Interpretation, Assessment (app.py line 277). -/
structure EvidenceRow where
  source : String
  value : String
  interpretation : String
  assessment : Assessment
deriving DecidableEq

/-- The threshold configuration `st.session_state.priors` (app.py lines
70-78), passed explicitly.  Defaults: af 1e-5, CADD 20.0, REVEL 0.5 /
0.75, SIFT 0.05.  The free-text `disease_context` entry plays no role in
aggregation and is omitted. -/
structure Priors where
  af_cutoff : ℚ
  cadd_cutoff : ℚ
  revel_cutoff : ℚ
  revel_strong : ℚ
  sift_cutoff : ℚ

/-- The default priors of app.py lines 71-78. -/
def defaultPriors : Priors :=
  { af_cutoff := mkRat 1 100000
    cadd_cutoff := 20
    revel_cutoff := mkRat 1 2
    revel_strong := mkRat 3 4
    sift_cutoff := mkRat 1 20 }

/-- The summary dict as read by `compute_pathogenicity_index` via `s.get`:
exactly the keys the aggregator consults.  `gnomad_controls_af` and
`gnomad_nhomalt` are included because the aggregator probes them even
though `summarize_variant` never emits them (see `toAggInput`).  The
class/pred fields hold the strings the code lower-cases; scores have
already been through `_to_float`/`safe_float`, hence `Option ℚ`. -/
structure AggInput where
  clinvar_significance : List String
  am_class : Option String
  am_score : Option ℚ
  revel : Option ℚ
  cadd_phred : Option ℚ
  sift_pred : Option String
  sift_score : Option ℚ
  polyphen_pred : Option String
  polyphen_score : Option ℚ
  gnomad_controls_af : Option ℚ
  gnomad_popmax_af : Option ℚ
  gnomad_nhomalt : Option ℚ
  gerp : Option ℚ
  phastcons : Option ℚ

/-- Accumulator of `compute_pathogenicity_index`: the three counters and
the evidence rows `w` (app.py lines 277-280). -/
structure AggState where
  p : ℕ
  u : ℕ
  b : ℕ
  w : List EvidenceRow
deriving DecidableEq

/-- ClinVar block (app.py lines 282-292): join the significance labels,
check for a pathogenic token first, then a benign token, then any other
non-empty text. -/
def clinvarBlock (s : AggInput) (st : AggState) : AggState :=
  let clin := String.intercalate ", " s.clinvar_significance
  if strContains (pyLower clin) "pathogenic" || strContains (pyLower clin) "likely_pathogenic" then
    ⟨st.p + 1, st.u, st.b, st.w ++
      [⟨"ClinVar", clin, "Reported pathogenic/likely pathogenic", .Pathogenic⟩]⟩
  else if strContains (pyLower clin) "benign" || strContains (pyLower clin) "likely_benign" then
    ⟨st.p, st.u, st.b + 1, st.w ++
      [⟨"ClinVar", clin, "Reported benign/likely benign", .Benign⟩]⟩
  else if !(clin = "") then
    ⟨st.p, st.u + 1, st.b, st.w ++
      [⟨"ClinVar", clin, "Other/conflicting", .Uncertain⟩]⟩
  else st

/-- AlphaMissense block (app.py lines 294-313): an explicit class label
takes precedence; otherwise the numeric score is cut at 0.8 / 0.2. -/
def amBlock (s : AggInput) (st : AggState) : AggState :=
  let amc := pyLower (s.am_class.getD "")
  let ams := s.am_score
  if amc = "pathogenic" || amc = "likely_pathogenic" then
    ⟨st.p + 1, st.u, st.b, st.w ++
      [⟨"AlphaMissense", s.am_class.getD "None" ++ " (" ++ optValStr ams ++ ")",
        "AI pathogenic class", .Pathogenic⟩]⟩
  else if amc = "benign" || amc = "likely_benign" then
    ⟨st.p, st.u, st.b + 1, st.w ++
      [⟨"AlphaMissense", s.am_class.getD "None" ++ " (" ++ optValStr ams ++ ")",
        "AI benign class", .Benign⟩]⟩
  else
    match ams with
    | none => st
    | some q =>
      if q ≥ mkRat 4 5 then
        ⟨st.p + 1, st.u, st.b, st.w ++
          [⟨"AlphaMissense", ratRepr q, "High score (≥0.8)", .Pathogenic⟩]⟩
      else if q ≤ mkRat 1 5 then
        ⟨st.p, st.u, st.b + 1, st.w ++
          [⟨"AlphaMissense", ratRepr q, "Low score (≤0.2)", .Benign⟩]⟩
      else
        ⟨st.p, st.u + 1, st.b, st.w ++
          [⟨"AlphaMissense", ratRepr q, "Moderate score", .Uncertain⟩]⟩

/-- REVEL block (app.py lines 315-326): strong cutoff, then suggestive
cutoff, else benign. -/
def revelBlock (s : AggInput) (pri : Priors) (st : AggState) : AggState :=
  match s.revel with
  | none => st
  | some revel =>
    if revel ≥ pri.revel_strong then
      ⟨st.p + 1, st.u, st.b, st.w ++
        [⟨"REVEL", ratRepr revel, "Strong (≥" ++ ratRepr pri.revel_strong ++ ")", .Pathogenic⟩]⟩
    else if revel ≥ pri.revel_cutoff then
      ⟨st.p, st.u + 1, st.b, st.w ++
        [⟨"REVEL", ratRepr revel, "Suggestive (≥" ++ ratRepr pri.revel_cutoff ++ ")", .Uncertain⟩]⟩
    else
      ⟨st.p, st.u, st.b + 1, st.w ++
        [⟨"REVEL", ratRepr revel, "Below damaging cutoffs", .Benign⟩]⟩

/-- CADD block (app.py lines 328-339): fixed 30 for pathogenic, the
configured cutoff for uncertain, else benign. -/
def caddBlock (s : AggInput) (pri : Priors) (st : AggState) : AggState :=
  match s.cadd_phred with
  | none => st
  | some cadd =>
    if cadd ≥ 30 then
      ⟨st.p + 1, st.u, st.b, st.w ++
        [⟨"CADD", ratRepr cadd, "Very high (≥30)", .Pathogenic⟩]⟩
    else if cadd ≥ pri.cadd_cutoff then
      ⟨st.p, st.u + 1, st.b, st.w ++
        [⟨"CADD", ratRepr cadd, "High (≥" ++ ratRepr pri.cadd_cutoff ++ ")", .Uncertain⟩]⟩
    else
      ⟨st.p, st.u, st.b + 1, st.w ++
        [⟨"CADD", ratRepr cadd, "Low/Moderate", .Benign⟩]⟩

/-- SIFT block (app.py lines 341-359).  The numeric branch compares
against the literal `0.05` (line 347) — `pri["sift_cutoff"]` is never
consulted here.  Lower is worse; with no score, a "del"-containing label
is pathogenic and a "tolerated"-containing label benign, any other label
contributes nothing. -/
def siftBlock (s : AggInput) (st : AggState) : AggState :=
  let siftPred := pyLower (s.sift_pred.getD "")
  match s.sift_score with
  | some q =>
    if q < mkRat 1 20 then
      ⟨st.p + 1, st.u, st.b, st.w ++
        [⟨"SIFT", ratRepr q, "Deleterious (<0.05) — affects protein function", .Pathogenic⟩]⟩
    else
      ⟨st.p, st.u, st.b + 1, st.w ++
        [⟨"SIFT", ratRepr q, "Tolerated (≥0.05) — protein function likely preserved", .Benign⟩]⟩
  | none =>
    if !(siftPred = "") then
      if strContains siftPred "del" then
        ⟨st.p + 1, st.u, st.b, st.w ++
          [⟨"SIFT", siftPred, "Deleterious — affects protein function", .Pathogenic⟩]⟩
      else if strContains siftPred "tolerated" then
        ⟨st.p, st.u, st.b + 1, st.w ++
          [⟨"SIFT", siftPred, "Tolerated — protein function likely preserved", .Benign⟩]⟩
      else st
    else st

/-- PolyPhen-2 block (app.py lines 361-385): fixed 0.85 / 0.15 cuts on the
score (higher is worse); label fallback on "prob" / "poss" / "benign". -/
def polyphenBlock (s : AggInput) (st : AggState) : AggState :=
  let ppPred := pyLower (s.polyphen_pred.getD "")
  match s.polyphen_score with
  | some q =>
    if q ≥ mkRat 17 20 then
      ⟨st.p + 1, st.u, st.b, st.w ++
        [⟨"PolyPhen-2", ratRepr q, "Probably damaging (≥0.85) — high confidence", .Pathogenic⟩]⟩
    else if q ≥ mkRat 3 20 then
      ⟨st.p, st.u + 1, st.b, st.w ++
        [⟨"PolyPhen-2", ratRepr q, "Possibly damaging (0.15-0.85) — uncertain impact", .Uncertain⟩]⟩
    else
      ⟨st.p, st.u, st.b + 1, st.w ++
        [⟨"PolyPhen-2", ratRepr q, "Benign (<0.15) — tolerated substitution", .Benign⟩]⟩
  | none =>
    if !(ppPred = "") then
      if strContains ppPred "prob" then
        ⟨st.p + 1, st.u, st.b, st.w ++
          [⟨"PolyPhen-2", ppPred, "Probably damaging — high confidence", .Pathogenic⟩]⟩
      else if strContains ppPred "poss" then
        ⟨st.p, st.u + 1, st.b, st.w ++
          [⟨"PolyPhen-2", ppPred, "Possibly damaging — uncertain impact", .Uncertain⟩]⟩
      else if strContains ppPred "benign" then
        ⟨st.p, st.u, st.b + 1, st.w ++
          [⟨"PolyPhen-2", ppPred, "Benign — tolerated substitution", .Benign⟩]⟩
      else st
    else st

/-- Population block (app.py lines 387-408): prefer the controls-cohort
frequency, else the popmax frequency; exactly zero or ≤ the configured
ceiling is pathogenic, ≤10× the ceiling uncertain, else benign.  The
source label records which frequency was used. -/
def popBlock (s : AggInput) (pri : Priors) (st : AggState) : AggState :=
  let ctrlAf := s.gnomad_controls_af
  let popVal := match ctrlAf with
    | some q => some q
    | none => s.gnomad_popmax_af
  match popVal with
  | none => st
  | some pv =>
    let valStr := if pv > 0 then ratRepr pv else "0"
    let source := match ctrlAf with
      | some _ => "Controls AF"
      | none => "PopMax AF"
    if pv = 0 then
      ⟨st.p + 1, st.u, st.b, st.w ++
        [⟨"Population (" ++ source ++ ")", valStr, "Absent in reference population", .Pathogenic⟩]⟩
    else if pv ≤ pri.af_cutoff then
      ⟨st.p + 1, st.u, st.b, st.w ++
        [⟨"Population (" ++ source ++ ")", valStr, "Rare enough for phenotype", .Pathogenic⟩]⟩
    else if pv ≤ pri.af_cutoff * 10 then
      ⟨st.p, st.u + 1, st.b, st.w ++
        [⟨"Population (" ++ source ++ ")", valStr, "Somewhat rare", .Uncertain⟩]⟩
    else
      ⟨st.p, st.u, st.b + 1, st.w ++
        [⟨"Population (" ++ source ++ ")", valStr, "Too common for severe phenotype", .Benign⟩]⟩

/-- Homozygote block (app.py lines 410-418): zero healthy homozygotes
appends an informational `Pathogenic` row WITHOUT incrementing any
counter; more than 5 counts benign; 1-5 contributes nothing. -/
def homBlock (s : AggInput) (st : AggState) : AggState :=
  match s.gnomad_nhomalt with
  | none => st
  | some q =>
    let nhom := pyInt q
    if nhom = 0 then
      ⟨st.p, st.u, st.b, st.w ++
        [⟨"Homozygotes", intRepr nhom, "No healthy homozygotes — compatible with recessive", .Pathogenic⟩]⟩
    else if nhom > 5 then
      ⟨st.p, st.u, st.b + 1, st.w ++
        [⟨"Homozygotes", intRepr nhom,
          intRepr nhom ++ " healthy homozygotes — argues against severe recessive", .Benign⟩]⟩
    else st

/-- GERP++ block (app.py lines 420-436): >4 pathogenic, >2 uncertain,
>0 benign, ≤0 benign (two distinct benign rows). -/
def gerpBlock (s : AggInput) (st : AggState) : AggState :=
  match s.gerp with
  | none => st
  | some g =>
    if g > 4 then
      ⟨st.p + 1, st.u, st.b, st.w ++
        [⟨"GERP++", ratRepr g, "Highly constrained (>4) — strong purifying selection", .Pathogenic⟩]⟩
    else if g > 2 then
      ⟨st.p, st.u + 1, st.b, st.w ++
        [⟨"GERP++", ratRepr g, "Moderately constrained (2-4) — some evolutionary pressure", .Uncertain⟩]⟩
    else if g > 0 then
      ⟨st.p, st.u, st.b + 1, st.w ++
        [⟨"GERP++", ratRepr g, "Weakly constrained (0-2) — limited conservation", .Benign⟩]⟩
    else
      ⟨st.p, st.u, st.b + 1, st.w ++
        [⟨"GERP++", ratRepr g, "Not constrained (≤0) — neutral or positive selection", .Benign⟩]⟩

/-- PhastCons100 block (app.py lines 438-454): ≥0.95 pathogenic, ≥0.9
uncertain, ≥0.5 uncertain (distinct row), else benign. -/
def phastconsBlock (s : AggInput) (st : AggState) : AggState :=
  match s.phastcons with
  | none => st
  | some pc =>
    if pc ≥ mkRat 19 20 then
      ⟨st.p + 1, st.u, st.b, st.w ++
        [⟨"PhastCons100", ratRepr pc, "Very highly conserved (≥0.95) — strong functional constraint", .Pathogenic⟩]⟩
    else if pc ≥ mkRat 9 10 then
      ⟨st.p, st.u + 1, st.b, st.w ++
        [⟨"PhastCons100", ratRepr pc, "Highly conserved (0.9-0.95) — likely functional", .Uncertain⟩]⟩
    else if pc ≥ mkRat 1 2 then
      ⟨st.p, st.u + 1, st.b, st.w ++
        [⟨"PhastCons100", ratRepr pc, "Moderately conserved (0.5-0.9) — possible constraint", .Uncertain⟩]⟩
    else
      ⟨st.p, st.u, st.b + 1, st.w ++
        [⟨"PhastCons100", ratRepr pc, "Poorly conserved (<0.5) — variable across vertebrates", .Benign⟩]⟩

/-- `compute_pathogenicity_index(s)` (app.py lines 272-456) with the
session priors passed explicitly: the ten source blocks run in the fixed
consultation order, each appending at most one row. -/
def computePathogenicityIndex (s : AggInput) (pri : Priors) : AggState :=
  let st := AggState.mk 0 0 0 []
  let st := clinvarBlock s st
  let st := amBlock s st
  let st := revelBlock s pri st
  let st := caddBlock s pri st
  let st := siftBlock s st
  let st := polyphenBlock s st
  let st := popBlock s pri st
  let st := homBlock s st
  let st := gerpBlock s st
  let st := phastconsBlock s st
  st

/-- Narrowing a raw summary field to the string the aggregator lower-cases
(`(x or "").lower()`); a truthy non-string there would raise in Python,
and no claim exercises that corner. -/
def asStrOpt : Option JValue → Option String
  | some (.str s) => some s
  | _ => none

/-- The aggregator's view of a normalized summary: `compute_pathogenicity_index`
reads the summary dict with `s.get`, so the two keys `summarize_variant`
never emits (`gnomad_controls_af`, `gnomad_nhomalt`) are always absent. -/
def toAggInput (s : Summary) : AggInput :=
  { clinvar_significance := s.clinvar_significance
    am_class := asStrOpt s.am_class
    am_score := s.am_score
    revel := s.revel
    cadd_phred := s.cadd_phred
    sift_pred := asStrOpt s.sift_pred
    sift_score := s.sift_score
    polyphen_pred := asStrOpt s.polyphen_pred
    polyphen_score := s.polyphen_score
    gnomad_controls_af := none
    gnomad_popmax_af := s.gnomad_popmax_af
    gnomad_nhomalt := none
    gerp := s.gerp
    phastcons := s.phastcons100way }

/-- The label selected by `severity_badge` (app.py lines 110-131),
stripped of its HTML wrapping: the ordered checks on the three counters
and the total. -/
def severityLabel (p u b total : ℕ) : String :=
  if total = 0 then "no data available"
  else if p > b ∧ p > u then "likely pathogenic"
  else if b > p ∧ b > u then "likely benign"
  else if u ≥ p ∧ u ≥ b then "uncertain significance"
  else if p = b then "conflicting evidence"
  else "uncertain — leaning pathogenic"

/-- The badge classifier on a count triple: the one call site (app.py
lines 581-592) passes `total_count = pathogenic + uncertain + benign`. -/
def classify (p u b : ℕ) : String :=
  severityLabel p u b (p + u + b)

/-- The digit-run scan of `protein_track_svg` (protein_track.py lines
12-15): walk the characters accumulating digits; on the first non-digit
after at least one digit, stop.  Returns the first maximal run of decimal
digits. -/
def scanDigits (num : List Char) : List Char → List Char
  | [] => num
  | c :: cs =>
    if c.isDigit then scanDigits (num ++ [c]) cs
    else if !num.isEmpty then num
    else scanDigits [] cs

/-- Python `token.split(needle, 1)[1]`: the remainder after the first
occurrence of `needle`, `none` when `needle` does not occur (the code
guards with `if needle in token`). -/
def afterSub (needle : List Char) : List Char → Option (List Char)
  | [] => none
  | c :: cs =>
    if needle.isPrefixOf (c :: cs) then some ((c :: cs).drop needle.length)
    else afterSub needle cs

/-- The protein-position extraction of `protein_track_svg`
(protein_track.py lines 3-20): take `summary.get("hgvsp") or ""`; skip a
falsy token; if `"p."` occurs, scan the text after its first occurrence
for the first run of decimal digits and parse it; any failure leaves the
position `None` — never zero.  (The summary stores `hgvsp` as a string
when present; the argument is that string.) -/
def aaPosFromHgvsp (hgvsp : Option String) : Option ℕ :=
  let token := hgvsp.getD ""
  if token = "" then none
  else
    match afterSub ['p', '.'] token.data with
    | none => none
    | some part =>
      let num := scanDigits [] part
      if num.isEmpty then none else some (digitsToNat num)

/-- The protein-position panel of `render_single` (app.py lines 822-826)
as a function of the two summary fields a position could come from: the
code reads ONLY `s.get("protein_pos")` — when present the shown position
is `int(s["protein_pos"])`, when `None` the panel reports the position
unavailable.  The protein HGVS text is passed here to make that
non-dependence provable: the panel never consults it (and
`summarize_variant` never emits a `protein_pos` key, so in the app this
panel always reports the position unavailable). -/
def renderSinglePos (protein_pos : Option ℚ) (_hgvsp : Option String) : Option ℤ :=
  match protein_pos with
  | none => none
  | some q => some (pyInt q)

/-- 1 exactly when the homozygote block appends its informational row
(present `nhomalt` whose `int` truncation is 0), else 0. -/
def homInfoCount (s : AggInput) : ℕ :=
  match s.gnomad_nhomalt with
  | none => 0
  | some q => if pyInt q = 0 then 1 else 0

/-- A summary dict on which every key probed by the aggregator is absent. -/
def emptyAggInput : AggInput :=
  { clinvar_significance := []
    am_class := none
    am_score := none
    revel := none
    cadd_phred := none
    sift_pred := none
    sift_score := none
    polyphen_pred := none
    polyphen_score := none
    gnomad_controls_af := none
    gnomad_popmax_af := none
    gnomad_nhomalt := none
    gerp := none
    phastcons := none }

/-- A summary whose only usable value is a zero homozygote count. -/
def homOnlyInput : AggInput :=
  { emptyAggInput with gnomad_nhomalt := some 0 }

/-- A threshold configuration whose SIFT deleterious cutoff has been
raised to 0.2 (the caller may mutate any cutoff). -/
def siftPriors : Priors :=
  { defaultPriors with sift_cutoff := mkRat 1 5 }

/-- A summary whose only usable value is a SIFT score of 0.1. -/
def siftScoreInput : AggInput :=
  { emptyAggInput with sift_score := some (mkRat 1 10) }

/-- A summary whose clinical-significance text carries both a pathogenic
and a benign token. -/
def conflictClinInput : AggInput :=
  { emptyAggInput with clinvar_significance := ["pathogenic", "benign"] }

/-- A raw payload whose first record reports only a popmax allele
frequency of exactly zero (controls-cohort frequency absent). -/
def popmaxZeroPayload : JValue :=
  .obj [("transcript_consequences",
    .arr [.obj [("gnomad4.1_joint_popmax_af", .num 0)]])]

/-- A raw payload in which the same publication identifier 12345 is
reported both by the transcript-level phenotype list (inside a
comma-joined string) and by the colocated-variant list (as a number). -/
def dualPubmedPayload : JValue :=
  .obj [
    ("transcript_consequences", .arr [.obj [("phenotypes", .arr [
      .obj [("phenotype", .str "DiseaseX"), ("pubmed_id", .str "12345, 678")]])]]),
    ("colocated_variants", .arr [.obj [("pubmed", .arr [.num 12345, .num 999])]])]

/-- A raw payload carrying list-valued fields with duplicates, used to
exercise the de-duplication invariant end to end. -/
def dupListsPayload : JValue :=
  .obj [
    ("transcript_consequences", .arr [.obj [
      ("domains", .arr [.str "PF0001", .str "PF0001", .str "PF0002"]),
      ("phenotypes", .arr [
        .obj [("phenotype", .str "DiseaseX")],
        .obj [("phenotype", .str "DiseaseX")]])]]),
    ("colocated_variants", .arr [.obj [("clin_sig", .arr [.str "Pathogenic", .str "pathogenic"])]])]

/-! ### Properties of the de-duplication loop -/

theorem mem_dedupGo (a : String) (xs : List String) :
    ∀ acc, a ∈ dedupGo acc xs ↔ a ∈ acc ∨ a ∈ xs := by
  induction xs with
  | nil => intro acc; simp [dedupGo]
  | cons x xs ih =>
    intro acc
    simp only [dedupGo]
    by_cases hx : x ∈ acc
    · simp only [if_pos hx, ih]
      constructor
      · rintro (h | h)
        · exact Or.inl h
        · exact Or.inr (List.mem_cons_of_mem _ h)
      · rintro (h | h)
        · exact Or.inl h
        · rcases List.mem_cons.mp h with h | h
          · exact Or.inl (h ▸ hx)
          · exact Or.inr h
    · simp only [if_neg hx, ih, List.mem_append, List.mem_singleton, List.mem_cons]
      tauto

theorem nodup_dedupGo (xs : List String) :
    ∀ acc, acc.Nodup → (dedupGo acc xs).Nodup := by
  induction xs with
  | nil => intro acc h; simpa [dedupGo] using h
  | cons x xs ih =>
    intro acc h
    simp only [dedupGo]
    by_cases hx : x ∈ acc
    · simpa [if_pos hx] using ih acc h
    · rw [if_neg hx]
      refine ih (acc ++ [x]) ?_
      rw [List.nodup_append]
      refine ⟨h, List.nodup_singleton x, ?_⟩
      intro b hb hb1
      rcases List.mem_singleton.mp hb1 with rfl
      exact hx hb

theorem dedupGo_sublist_shape (xs : List String) :
    ∀ acc, ∃ ys, dedupGo acc xs = acc ++ ys ∧ ys.Sublist xs := by
  induction xs with
  | nil => intro acc; exact ⟨[], by simp [dedupGo]⟩
  | cons x xs ih =>
    intro acc
    simp only [dedupGo]
    by_cases hx : x ∈ acc
    · rcases ih acc with ⟨ys, hy, hs⟩
      exact ⟨ys, by simp [if_pos hx, hy], hs.cons x⟩
    · rcases ih (acc ++ [x]) with ⟨ys, hy, hs⟩
      exact ⟨x :: ys, by simp [if_neg hx, hy], hs.cons₂ x⟩

theorem dedupGo_eq_of_nodup (xs : List String) :
    ∀ acc, xs.Nodup → (∀ a ∈ acc, a ∉ xs) → dedupGo acc xs = acc ++ xs := by
  induction xs with
  | nil => intro acc _ _; simp [dedupGo]
  | cons x xs ih =>
    intro acc hn hd
    have hx : x ∉ acc := fun h => hd x h (List.mem_cons_self x xs)
    simp only [dedupGo, if_neg hx]
    rw [ih (acc ++ [x]) (List.Nodup.of_cons hn) ?_]
    · simp
    · intro a ha
      rcases List.mem_append.mp ha with h | h
      · exact fun hxs => hd a h (List.mem_cons_of_mem _ hxs)
      · rcases List.mem_singleton.mp h with rfl
        exact (List.nodup_cons.mp hn).1

theorem nodup_dedup (xs : List String) : (dedup xs).Nodup :=
  nodup_dedupGo xs [] List.nodup_nil

theorem mem_dedup (a : String) (xs : List String) : a ∈ dedup xs ↔ a ∈ xs := by
  simpa using mem_dedupGo a xs []

theorem dedup_sublist (xs : List String) : (dedup xs).Sublist xs := by
  rcases dedupGo_sublist_shape xs [] with ⟨ys, hy, hs⟩
  simpa [dedup, hy] using hs

theorem dedup_eq_self_of_nodup (xs : List String) (h : xs.Nodup) : dedup xs = xs := by
  simpa [dedup] using dedupGo_eq_of_nodup xs [] h (by simp)

theorem nodup_uniq (xs : List String) : (uniq xs).Nodup :=
  nodup_dedup _

theorem uniq_sublist (xs : List String) : (uniq xs).Sublist xs :=
  (dedup_sublist _).trans (List.filter_sublist xs)

theorem uniq_idem (xs : List String) : uniq (uniq xs) = uniq xs := by
  unfold uniq
  have hfix : (dedup (xs.filter (fun x => !(x = "")))).filter (fun x => !(x = ""))
      = dedup (xs.filter (fun x => !(x = ""))) := by
    apply List.filter_eq_self.mpr
    intro a ha
    have := (mem_dedup a _).mp ha
    exact (List.mem_filter.mp this).2
  rw [hfix]
  exact dedup_eq_self_of_nodup _ (nodup_dedup _)

/-! ### Row/counter balance of the aggregation blocks -/

theorem clinvarBlock_balance (s : AggInput) (st : AggState) (k : ℕ)
    (h : st.p + st.u + st.b + k = st.w.length) :
    (clinvarBlock s st).p + (clinvarBlock s st).u + (clinvarBlock s st).b + k
      = (clinvarBlock s st).w.length := by
  unfold clinvarBlock
  dsimp only
  split_ifs <;> (try simp only [List.length_append, List.length_cons, List.length_nil]) <;> omega

theorem amBlock_balance (s : AggInput) (st : AggState) (k : ℕ)
    (h : st.p + st.u + st.b + k = st.w.length) :
    (amBlock s st).p + (amBlock s st).u + (amBlock s st).b + k
      = (amBlock s st).w.length := by
  unfold amBlock
  cases s.am_score <;> dsimp only <;> split_ifs <;>
    (try simp only [List.length_append, List.length_cons, List.length_nil]) <;> omega

theorem revelBlock_balance (s : AggInput) (pri : Priors) (st : AggState) (k : ℕ)
    (h : st.p + st.u + st.b + k = st.w.length) :
    (revelBlock s pri st).p + (revelBlock s pri st).u + (revelBlock s pri st).b + k
      = (revelBlock s pri st).w.length := by
  unfold revelBlock
  cases s.revel <;> dsimp only <;> (try split_ifs) <;>
    (try simp only [List.length_append, List.length_cons, List.length_nil]) <;> omega

theorem caddBlock_balance (s : AggInput) (pri : Priors) (st : AggState) (k : ℕ)
    (h : st.p + st.u + st.b + k = st.w.length) :
    (caddBlock s pri st).p + (caddBlock s pri st).u + (caddBlock s pri st).b + k
      = (caddBlock s pri st).w.length := by
  unfold caddBlock
  cases s.cadd_phred <;> dsimp only <;> (try split_ifs) <;>
    (try simp only [List.length_append, List.length_cons, List.length_nil]) <;> omega

theorem siftBlock_balance (s : AggInput) (st : AggState) (k : ℕ)
    (h : st.p + st.u + st.b + k = st.w.length) :
    (siftBlock s st).p + (siftBlock s st).u + (siftBlock s st).b + k
      = (siftBlock s st).w.length := by
  unfold siftBlock
  cases s.sift_score <;> dsimp only <;> (try split_ifs) <;>
    (try simp only [List.length_append, List.length_cons, List.length_nil]) <;> omega

theorem polyphenBlock_balance (s : AggInput) (st : AggState) (k : ℕ)
    (h : st.p + st.u + st.b + k = st.w.length) :
    (polyphenBlock s st).p + (polyphenBlock s st).u + (polyphenBlock s st).b + k
      = (polyphenBlock s st).w.length := by
  unfold polyphenBlock
  cases s.polyphen_score <;> dsimp only <;> (try split_ifs) <;>
    (try simp only [List.length_append, List.length_cons, List.length_nil]) <;> omega

theorem popBlock_balance (s : AggInput) (pri : Priors) (st : AggState) (k : ℕ)
    (h : st.p + st.u + st.b + k = st.w.length) :
    (popBlock s pri st).p + (popBlock s pri st).u + (popBlock s pri st).b + k
      = (popBlock s pri st).w.length := by
  unfold popBlock
  cases s.gnomad_controls_af <;> cases s.gnomad_popmax_af <;> dsimp only <;>
    (try split_ifs) <;>
    (try simp only [List.length_append, List.length_cons, List.length_nil]) <;> omega

theorem homBlock_balance (s : AggInput) (st : AggState) (k : ℕ)
    (h : st.p + st.u + st.b + k = st.w.length) :
    (homBlock s st).p + (homBlock s st).u + (homBlock s st).b + (k + homInfoCount s)
      = (homBlock s st).w.length := by
  unfold homBlock homInfoCount
  cases s.gnomad_nhomalt <;> dsimp only <;> (try split_ifs) <;>
    (try simp only [List.length_append, List.length_cons, List.length_nil]) <;> omega

theorem gerpBlock_balance (s : AggInput) (st : AggState) (k : ℕ)
    (h : st.p + st.u + st.b + k = st.w.length) :
    (gerpBlock s st).p + (gerpBlock s st).u + (gerpBlock s st).b + k
      = (gerpBlock s st).w.length := by
  unfold gerpBlock
  cases s.gerp <;> dsimp only <;> (try split_ifs) <;>
    (try simp only [List.length_append, List.length_cons, List.length_nil]) <;> omega

theorem phastconsBlock_balance (s : AggInput) (st : AggState) (k : ℕ)
    (h : st.p + st.u + st.b + k = st.w.length) :
    (phastconsBlock s st).p + (phastconsBlock s st).u + (phastconsBlock s st).b + k
      = (phastconsBlock s st).w.length := by
  unfold phastconsBlock
  cases s.phastcons <;> dsimp only <;> (try split_ifs) <;>
    (try simp only [List.length_append, List.length_cons, List.length_nil]) <;> omega

/-! ### Claim C1 -/

/-- C1, counterexample: on a summary whose only usable value is a zero
homozygote count, the aggregator returns counts (0,0,0) but one evidence
row — the informational zero-homozygote row is appended without
incrementing any counter (app.py lines 413-415), so
`pathogenic_count + uncertain_count + benign_count` is NOT the number of
rows, and that source emits a row while incrementing no counter. -/
theorem hom_row_breaks_count_invariant :
    (computePathogenicityIndex homOnlyInput defaultPriors).p
        + (computePathogenicityIndex homOnlyInput defaultPriors).u
        + (computePathogenicityIndex homOnlyInput defaultPriors).b
      ≠ (computePathogenicityIndex homOnlyInput defaultPriors).w.length := by
  decide

/-- C1, amended: for every summary and threshold configuration,
`pathogenic_count + uncertain_count + benign_count` equals the number of
EvidenceRow entries MINUS the zero-homozygote informational row (present
exactly when a homozygote count is available and truncates to 0); every
other consulted source that emits a row increments exactly one of the
three counters, and a source with no usable value emits no row and
increments no counter. -/
theorem aggregation_count_invariant_amended (s : AggInput) (pri : Priors) :
    (computePathogenicityIndex s pri).p + (computePathogenicityIndex s pri).u
        + (computePathogenicityIndex s pri).b + homInfoCount s
      = (computePathogenicityIndex s pri).w.length := by
  have h0 : (AggState.mk 0 0 0 []).p + (AggState.mk 0 0 0 []).u
      + (AggState.mk 0 0 0 []).b + 0 = (AggState.mk 0 0 0 []).w.length := rfl
  have h1 := clinvarBlock_balance s (AggState.mk 0 0 0 []) 0 h0
  have h2 := amBlock_balance s _ 0 h1
  have h3 := revelBlock_balance s pri _ 0 h2
  have h4 := caddBlock_balance s pri _ 0 h3
  have h5 := siftBlock_balance s _ 0 h4
  have h6 := polyphenBlock_balance s _ 0 h5
  have h7 := popBlock_balance s pri _ 0 h6
  have h8 := homBlock_balance s _ 0 h7
  have h9 := gerpBlock_balance s _ (0 + homInfoCount s) h8
  have h10 := phastconsBlock_balance s _ (0 + homInfoCount s) h9
  simpa [computePathogenicityIndex] using h10

/-! ### Claim C2 -/

/-- C2: the badge classifier is a pure total function of the three counts;
for every non-negative integer triple it returns exactly one of five fixed
labels (the sixth text of the source, "uncertain — leaning pathogenic", is
unreachable when the total is the sum of the counts), with the code's
tie-break precedence: total 0 → "no data available"; pathogenic strictly
greater than both others → "likely pathogenic"; benign strictly greater
than both others → "likely benign"; uncertain ≥ both others → "uncertain
significance"; pathogenic = benign → "conflicting evidence"; and the
specific values (3,0,0), (0,0,3), (1,1,1), (2,1,2), (0,0,0) map as the
spec lists. -/
theorem severity_badge_five_way_partition :
    (∀ p u b : ℕ,
      classify p u b ∈ ["no data available", "likely pathogenic", "likely benign",
        "uncertain significance", "conflicting evidence"] ∧
      (p + u + b = 0 → classify p u b = "no data available") ∧
      (p > u → p > b → classify p u b = "likely pathogenic") ∧
      (b > p → b > u → classify p u b = "likely benign") ∧
      (¬(p > u ∧ p > b) → ¬(b > p ∧ b > u) → u ≥ p → u ≥ b → p + u + b ≠ 0 →
        classify p u b = "uncertain significance") ∧
      (¬(p > u ∧ p > b) → ¬(b > p ∧ b > u) → ¬(u ≥ p ∧ u ≥ b) → p = b →
        classify p u b = "conflicting evidence")) ∧
    classify 3 0 0 = "likely pathogenic" ∧
    classify 0 0 3 = "likely benign" ∧
    classify 1 1 1 = "uncertain significance" ∧
    classify 2 1 2 = "conflicting evidence" ∧
    classify 0 0 0 = "no data available" := by
  refine ⟨?_, by decide, by decide, by decide, by decide, by decide⟩
  intro p u b
  unfold classify severityLabel
  refine ⟨?_, ?_, ?_, ?_, ?_, ?_⟩ <;> split_ifs <;> simp <;> omega

/-- C2, witness: the conditional clauses of the partition theorem applied
at concrete triples. -/
theorem severity_badge_five_way_partition_witness :
    classify 2 1 0 = "likely pathogenic" ∧ classify 0 1 2 = "likely benign" ∧
    classify 1 2 1 = "uncertain significance" ∧ classify 2 0 2 = "conflicting evidence" ∧
    classify 0 0 0 = "no data available" :=
  ⟨((severity_badge_five_way_partition.1 2 1 0).2.2.1 (by decide) (by decide)),
   ((severity_badge_five_way_partition.1 0 1 2).2.2.2.1 (by decide) (by decide)),
   ((severity_badge_five_way_partition.1 1 2 1).2.2.2.2.1 (by decide) (by decide)
      (by decide) (by decide) (by decide)),
   ((severity_badge_five_way_partition.1 2 0 2).2.2.2.2.2 (by decide) (by decide)
      (by decide) (by decide)),
   ((severity_badge_five_way_partition.1 0 0 0).2.1 (by decide))⟩

/-! ### Claim C3 -/

/-- C3: the population-frequency source uses the controls-cohort allele
frequency when present, otherwise the popmax frequency; exactly zero or at
most the configured ceiling classifies Pathogenic, at most ten times the
ceiling Uncertain, otherwise Benign, and the row's source label names the
frequency actually used.  In particular, on a payload with controls-AF
absent and popmax-AF = 0, under the default ceiling 1e-5, the aggregator
emits exactly one Pathogenic row sourced "PopMax AF". -/
theorem population_frequency_rule :
    (∀ (s : AggInput) (pri : Priors) (st : AggState) (q : ℚ) (src : String),
      ((s.gnomad_controls_af = some q ∧ src = "Controls AF") ∨
       (s.gnomad_controls_af = none ∧ s.gnomad_popmax_af = some q ∧ src = "PopMax AF")) →
      popBlock s pri st =
        (if q = 0 then
          ⟨st.p + 1, st.u, st.b, st.w ++ [⟨"Population (" ++ src ++ ")",
            if q > 0 then ratRepr q else "0", "Absent in reference population", .Pathogenic⟩]⟩
        else if q ≤ pri.af_cutoff then
          ⟨st.p + 1, st.u, st.b, st.w ++ [⟨"Population (" ++ src ++ ")",
            if q > 0 then ratRepr q else "0", "Rare enough for phenotype", .Pathogenic⟩]⟩
        else if q ≤ pri.af_cutoff * 10 then
          ⟨st.p, st.u + 1, st.b, st.w ++ [⟨"Population (" ++ src ++ ")",
            if q > 0 then ratRepr q else "0", "Somewhat rare", .Uncertain⟩]⟩
        else
          ⟨st.p, st.u, st.b + 1, st.w ++ [⟨"Population (" ++ src ++ ")",
            if q > 0 then ratRepr q else "0", "Too common for severe phenotype", .Benign⟩]⟩)) ∧
    summarizeVariant [popmaxZeroPayload] = .ok (buildSummary popmaxZeroPayload) ∧
    (buildSummary popmaxZeroPayload).gnomad_popmax_af = some 0 ∧
    (toAggInput (buildSummary popmaxZeroPayload)).gnomad_controls_af = none ∧
    defaultPriors.af_cutoff = mkRat 1 100000 ∧
    computePathogenicityIndex (toAggInput (buildSummary popmaxZeroPayload)) defaultPriors
      = ⟨1, 0, 0, [⟨"Population (PopMax AF)", "0", "Absent in reference population",
          .Pathogenic⟩]⟩ := by
  refine ⟨?_, rfl, by decide, by decide, by decide, by decide⟩
  rintro s pri st q src (⟨hc, rfl⟩ | ⟨hc, hp, rfl⟩)
  · unfold popBlock
    rw [hc]
  · unfold popBlock
    rw [hc, hp]

/-- C3, witness: the population rule applied to a summary with a
controls-cohort frequency of zero present, and to one with only popmax. -/
theorem population_frequency_rule_witness :
    popBlock { emptyAggInput with gnomad_controls_af := some 0 } defaultPriors
        (AggState.mk 0 0 0 [])
      = ⟨1, 0, 0, [⟨"Population (Controls AF)", "0", "Absent in reference population",
          .Pathogenic⟩]⟩ := by
  have h := population_frequency_rule.1
    { emptyAggInput with gnomad_controls_af := some 0 } defaultPriors
    (AggState.mk 0 0 0 []) 0 "Controls AF" (Or.inl ⟨rfl, rfl⟩)
  rw [h]
  decide

/-! ### Claim C4 -/

/-- C4, counterexample: with the SIFT deleterious cutoff reconfigured to
0.2, a SIFT score of 0.1 lies strictly below the configured cutoff, yet
the aggregator classifies it Benign — the numeric branch compares against
the literal 0.05 (app.py line 347) and never consults
`pri["sift_cutoff"]`, so the claim fails for non-default configurations. -/
theorem sift_ignores_configured_cutoff :
    siftScoreInput.sift_score = some (mkRat 1 10) ∧
    mkRat 1 10 < siftPriors.sift_cutoff ∧
    computePathogenicityIndex siftScoreInput siftPriors
      = ⟨0, 0, 1, [⟨"SIFT", ratRepr (mkRat 1 10),
          "Tolerated (≥0.05) — protein function likely preserved", .Benign⟩]⟩ := by
  decide

/-- C4, amended: a numeric SIFT score strictly below the FIXED constant
0.05 (the configured tolerance-predictor cutoff is not consulted)
classifies Pathogenic and any other score Benign — the opposite direction
from the impact predictor; with no numeric score, a "del"-containing
label classifies Pathogenic and a "tolerated"-containing label Benign. -/
theorem sift_rule_amended :
    (∀ (s : AggInput) (st : AggState) (q : ℚ), s.sift_score = some q → q < mkRat 1 20 →
      siftBlock s st = ⟨st.p + 1, st.u, st.b, st.w ++
        [⟨"SIFT", ratRepr q, "Deleterious (<0.05) — affects protein function",
          .Pathogenic⟩]⟩) ∧
    (∀ (s : AggInput) (st : AggState) (q : ℚ), s.sift_score = some q → ¬(q < mkRat 1 20) →
      siftBlock s st = ⟨st.p, st.u, st.b + 1, st.w ++
        [⟨"SIFT", ratRepr q, "Tolerated (≥0.05) — protein function likely preserved",
          .Benign⟩]⟩) ∧
    (∀ (s : AggInput) (st : AggState) (pr : String), s.sift_score = none →
      s.sift_pred = some pr → strContains (pyLower pr) "del" = true →
      siftBlock s st = ⟨st.p + 1, st.u, st.b, st.w ++
        [⟨"SIFT", pyLower pr, "Deleterious — affects protein function", .Pathogenic⟩]⟩) ∧
    (∀ (s : AggInput) (st : AggState) (pr : String), s.sift_score = none →
      s.sift_pred = some pr → strContains (pyLower pr) "del" = false →
      strContains (pyLower pr) "tolerated" = true →
      siftBlock s st = ⟨st.p, st.u, st.b + 1, st.w ++
        [⟨"SIFT", pyLower pr, "Tolerated — protein function likely preserved",
          .Benign⟩]⟩) := by
  refine ⟨?_, ?_, ?_, ?_⟩
  · intro s st q hs hq
    unfold siftBlock
    rw [hs]
    dsimp only
    rw [if_pos hq]
  · intro s st q hs hq
    unfold siftBlock
    rw [hs]
    dsimp only
    rw [if_neg hq]
  · intro s st pr hs hpred hdel
    have hne : ¬(pyLower pr = "") := by
      intro he
      rw [he] at hdel
      exact absurd hdel (by decide)
    unfold siftBlock
    rw [hs, hpred]
    simp only [Option.getD_some]
    rw [if_pos (by simpa using hne), if_pos hdel]
  · intro s st pr hs hpred hdel htol
    have hne : ¬(pyLower pr = "") := by
      intro he
      rw [he] at htol
      exact absurd htol (by decide)
    unfold siftBlock
    rw [hs, hpred]
    simp only [Option.getD_some]
    rw [if_pos (by simpa using hne), if_neg (by simp [hdel]), if_pos htol]

/-- C4, witness: the amended rule applied at a deleterious score of 0.01
and a tolerated score of 0.9. -/
theorem sift_rule_amended_witness :
    siftBlock { emptyAggInput with sift_score := some (mkRat 1 100) } (AggState.mk 0 0 0 [])
      = ⟨1, 0, 0, [⟨"SIFT", ratRepr (mkRat 1 100),
          "Deleterious (<0.05) — affects protein function", .Pathogenic⟩]⟩ ∧
    siftBlock { emptyAggInput with sift_score := some (mkRat 9 10) } (AggState.mk 0 0 0 [])
      = ⟨0, 0, 1, [⟨"SIFT", ratRepr (mkRat 9 10),
          "Tolerated (≥0.05) — protein function likely preserved", .Benign⟩]⟩ :=
  ⟨sift_rule_amended.1 _ _ (mkRat 1 100) rfl (by decide),
   sift_rule_amended.2.1 _ _ (mkRat 9 10) rfl (by decide)⟩

/-! ### Claim C5 -/

/-- C5: for the payload whose top-level sequence is empty, normalization
returns the "no data" error record — a `SummarizeResult.error` value that
carries nothing but the message, so no other summary field is populated —
and, being a total function, raises no exception. -/
theorem empty_payload_yields_no_data_result :
    summarizeVariant [] = .error "Empty VEP response." := rfl

/-! ### Claim C6 -/

theorem nodup_of_summary_fields (v : List JValue) (s : Summary)
    (h : summarizeVariant v = .ok s) :
    s.clinvar_significance.Nodup ∧ s.clinvar_review.Nodup ∧ s.phenotypes.Nodup ∧
    s.domains.Nodup ∧ s.go_terms.Nodup ∧ s.pubmed_ids.Nodup ∧ s.interactors.Nodup := by
  match v with
  | [] => simp [summarizeVariant] at h
  | v0 :: rest =>
    have hs : buildSummary v0 = s := by
      simpa [summarizeVariant] using h
    subst hs
    exact ⟨nodup_uniq _, nodup_uniq _, nodup_uniq _, nodup_uniq _,
      nodup_uniq _, nodup_uniq _, nodup_uniq _⟩

/-- C6: every list-valued field of a normalized summary (clinical
significance, review status, phenotypes, domains, ontology terms,
publication identifiers, interactors) is de-duplicated preserving
first-seen order (`uniq xs` is a duplicate-free sublist of `xs`, so
surviving elements keep their first-seen relative order), and the
list-merge step is idempotent: applied to its own output it returns the
same list in the same order. -/
theorem list_fields_deduplicated_and_idempotent :
    (∀ xs, uniq (uniq xs) = uniq xs) ∧
    (∀ xs, (uniq xs).Nodup ∧ (uniq xs).Sublist xs) ∧
    (∀ v s, summarizeVariant v = .ok s →
      s.clinvar_significance.Nodup ∧ s.clinvar_review.Nodup ∧ s.phenotypes.Nodup ∧
      s.domains.Nodup ∧ s.go_terms.Nodup ∧ s.pubmed_ids.Nodup ∧ s.interactors.Nodup) :=
  ⟨uniq_idem, fun xs => ⟨nodup_uniq xs, uniq_sublist xs⟩, nodup_of_summary_fields⟩

/-- C6, witness: the field part applied to a payload with duplicated
domain, phenotype and clinical-significance values, together with the
evaluated de-duplicated fields. -/
theorem list_fields_deduplicated_witness :
    (buildSummary dupListsPayload).domains.Nodup ∧
    (buildSummary dupListsPayload).domains = ["PF0001", "PF0002"] ∧
    (buildSummary dupListsPayload).phenotypes = ["DiseaseX"] ∧
    (buildSummary dupListsPayload).clinvar_significance = ["pathogenic"] :=
  ⟨(list_fields_deduplicated_and_idempotent.2.2 [dupListsPayload]
      (buildSummary dupListsPayload) rfl).2.2.2.1,
   by decide, by decide, by decide⟩

/-! ### Claim C7 -/

theorem takeWhile_dropWhile_of_none (p : Char → Bool) (l : List Char)
    (h : ∀ c ∈ l, p c = false) :
    l.takeWhile p = [] ∧ l.dropWhile p = l := by
  cases l with
  | nil => simp
  | cons c cs =>
    have hc := h c (List.mem_cons_self c cs)
    simp [List.takeWhile_cons, List.dropWhile_cons, hc]

theorem takeSign_snd_subset (cs : List Char) : ∀ c ∈ (takeSign cs).2, c ∈ cs := by
  cases cs with
  | nil => simp [takeSign]
  | cons c0 cs0 =>
    simp only [takeSign]
    split_ifs <;> intro c hc <;> simp_all

theorem parseMantissa_none_of_no_digit (l : List Char)
    (h : ∀ c ∈ l, c.isDigit = false) :
    parseMantissa l = none := by
  have h1 := (takeWhile_dropWhile_of_none Char.isDigit l h).1
  have h2 := (takeWhile_dropWhile_of_none Char.isDigit l h).2
  unfold parseMantissa
  rw [h1, h2]
  by_cases hh : l.head? = some '.'
  · rw [if_pos hh]
    have h3 : l.tail.takeWhile Char.isDigit = [] :=
      (takeWhile_dropWhile_of_none Char.isDigit l.tail
        (fun c hc => h c (List.mem_of_mem_tail hc))).1
    rw [h3]
    simp
  · rw [if_neg hh]
    simp

theorem parseFloat_none_of_no_digit (s : String)
    (h : ∀ c ∈ (pyStrip s).data, c.isDigit = false) :
    parseFloat s = none := by
  unfold parseFloat
  dsimp only
  have hm : parseMantissa (takeSign (pyStrip s).data).2 = none :=
    parseMantissa_none_of_no_digit _
      (fun c hc => h c (takeSign_snd_subset (pyStrip s).data c hc))
  rw [hm]

/-- C7: field extraction returns the value of the first key in its ordered
candidate list whose value is present and neither None nor empty string
nor empty list nor empty dict (first-match-wins, not a merge; key misses
and emptyish values fall through to the next candidate, and an exhausted
list yields the absent default); and numeric parsing follows the uniform
parse-or-absent contract: `None`, lists, dicts and digit-free strings all
parse to absent — never to zero and never to an exception — while numeric
values and numeric text parse to their value. -/
theorem first_match_extraction_and_parse_or_absent :
    (∀ d : JObj, getFirst d [] = none) ∧
    (∀ (d : JObj) (k : String) (ks : List String) (v : JValue),
      jLookup d k = some v → isEmptyVal v = false → getFirst d (k :: ks) = some v) ∧
    (∀ (d : JObj) (k : String) (ks : List String),
      jLookup d k = none → getFirst d (k :: ks) = getFirst d ks) ∧
    (∀ (d : JObj) (k : String) (ks : List String) (v : JValue),
      jLookup d k = some v → isEmptyVal v = true → getFirst d (k :: ks) = getFirst d ks) ∧
    toFloat .null = none ∧
    (∀ xs, toFloat (.arr xs) = none) ∧
    (∀ fs, toFloat (.obj fs) = none) ∧
    (∀ s : String, (∀ c ∈ (pyStrip s).data, c.isDigit = false) →
      toFloat (.str s) = none) ∧
    (∀ q : ℚ, toFloat (.num q) = some q) ∧
    toFloat (.str "1e-5") = some (mkRat 1 100000) ∧
    toFloat (.str "0.75") = some (mkRat 3 4) ∧
    toFloat (.str "not a number") = none ∧
    toFloat (.str "") = none := by
  refine ⟨fun d => rfl, ?_, ?_, ?_, by decide, ?_, ?_, ?_, fun q => rfl,
    by decide, by decide, by decide, by decide⟩
  · intro d k ks v hv he
    unfold getFirst
    rw [hv]
    simp [he]
  · intro d k ks hv
    simp only [getFirst, hv]
  · intro d k ks v hv he
    simp only [getFirst, hv, he, if_true]
  · intro xs
    show parseFloat "[list]" = none
    exact parseFloat_none_of_no_digit "[list]" (by decide)
  · intro fs
    show parseFloat "[dict]" = none
    exact parseFloat_none_of_no_digit "[dict]" (by decide)
  · intro s hs
    exact parseFloat_none_of_no_digit s hs

/-- C7, witness: the conditional clauses applied at a concrete dict and a
concrete digit-free string. -/
theorem first_match_extraction_witness :
    getFirst [("a", .null), ("b", .str "x")] ["a", "b"] = some (.str "x") ∧
    toFloat (.str "abc") = none := by
  constructor
  · have h1 := first_match_extraction_and_parse_or_absent.2.2.2.1
      [("a", .null), ("b", .str "x")] "a" ["b"] .null rfl rfl
    have h2 := first_match_extraction_and_parse_or_absent.2.1
      [("a", .null), ("b", .str "x")] "b" [] (.str "x") rfl rfl
    rw [h1, h2]
  · exact first_match_extraction_and_parse_or_absent.2.2.2.2.2.2.2.1 "abc" (by decide)

/-! ### Claim C8 -/

/-- C8: publication identifiers gathered from both nested locations (the
transcript-level phenotype list and the colocated-variant list), whether
comma-joined strings or discrete values, normalize into one flat
de-duplicated list; on the payload where both locations report 12345, it
appears exactly once. -/
theorem pubmed_ids_merged_and_deduplicated :
    (∀ v s, summarizeVariant v = .ok s →
      s.pubmed_ids.Nodup ∧ ∀ x, s.pubmed_ids.count x ≤ 1) ∧
    summarizeVariant [dualPubmedPayload] = .ok (buildSummary dualPubmedPayload) ∧
    (buildSummary dualPubmedPayload).pubmed_ids = ["12345", "678", "999"] ∧
    (buildSummary dualPubmedPayload).pubmed_ids.count "12345" = 1 := by
  refine ⟨?_, rfl, by decide, by decide⟩
  intro v s h
  have hn := (nodup_of_summary_fields v s h).2.2.2.2.2.1
  exact ⟨hn, fun x => List.nodup_iff_count_le_one.mp hn x⟩

/-- C8, witness: the de-duplication part applied to the dual-location
payload. -/
theorem pubmed_ids_merged_witness :
    (buildSummary dualPubmedPayload).pubmed_ids.Nodup :=
  (pubmed_ids_merged_and_deduplicated.1 [dualPubmedPayload]
    (buildSummary dualPubmedPayload) rfl).1

/-! ### Claim C9 -/

theorem scanDigits_nondigit_lead (pre rest : List Char)
    (h : ∀ c ∈ pre, c.isDigit = false) :
    scanDigits [] (pre ++ rest) = scanDigits [] rest := by
  induction pre with
  | nil => rfl
  | cons c cs ih =>
    have hc := h c (List.mem_cons_self c cs)
    simp only [List.cons_append, scanDigits, hc]
    simpa using ih (fun x hx => h x (List.mem_cons_of_mem _ hx))

theorem scanDigits_digit_run (ds : List Char) :
    ∀ (rest num : List Char), (∀ c ∈ ds, c.isDigit = true) →
    (∀ c ∈ rest.take 1, c.isDigit = false) → num ++ ds ≠ [] →
    scanDigits num (ds ++ rest) = num ++ ds := by
  induction ds with
  | nil =>
    intro rest num _ hstop hne
    simp only [List.append_nil] at hne ⊢
    cases rest with
    | nil => rfl
    | cons r rs =>
      have hr := hstop r (by simp)
      have hnum : num.isEmpty = false := by
        cases num
        · exact absurd rfl hne
        · rfl
      simp [scanDigits, hr, hnum]
  | cons d ds ih =>
    intro rest num hds hstop _
    have hd := hds d (List.mem_cons_self _ _)
    simp only [List.cons_append, scanDigits, hd, if_true, List.append_eq]
    have hrec := ih rest (num ++ [d])
      (fun c hc => hds c (List.mem_cons_of_mem _ hc)) hstop (by simp)
    rw [hrec]
    simp

theorem isPrefixOf_append_self (l t : List Char) : l.isPrefixOf (l ++ t) = true := by
  induction l with
  | nil => simp [List.isPrefixOf]
  | cons c cs ih => simp [List.isPrefixOf, ih]

theorem afterSub_self_leading (needle rest : List Char) (h : needle ≠ []) :
    afterSub needle (needle ++ rest) = some rest := by
  cases needle with
  | nil => exact absurd rfl h
  | cons n ns =>
    have hp : (n :: ns).isPrefixOf ((n :: ns) ++ rest) = true :=
      isPrefixOf_append_self (n :: ns) rest
    have hdrop : ((n :: ns) ++ rest).drop (n :: ns).length = rest := List.drop_left _ _
    simp only [List.cons_append] at hp hdrop
    simp only [List.cons_append, afterSub, List.append_eq, hp, if_true, hdrop]

theorem afterSub_subset (needle : List Char) :
    ∀ l part, afterSub needle l = some part → ∀ c ∈ part, c ∈ l := by
  intro l
  induction l with
  | nil => intro part h; simp [afterSub] at h
  | cons c0 cs ih =>
    intro part h
    unfold afterSub at h
    split_ifs at h with hp
    · injection h with h
      subst h
      intro x hx
      exact List.drop_subset _ _ hx
    · intro x hx
      exact List.mem_cons_of_mem _ (ih part h x hx)

theorem scanDigits_of_all_nondigit (l : List Char) (h : ∀ c ∈ l, c.isDigit = false) :
    scanDigits [] l = [] := by
  have := scanDigits_nondigit_lead l [] h
  simpa using this

theorem aaPos_scan_eq (t : String) (ht : ¬(t = "")) (part : List Char)
    (hsub : afterSub ['p', '.'] t.data = some part) :
    aaPosFromHgvsp (some t)
      = (if (scanDigits [] part).isEmpty then none
         else some (digitsToNat (scanDigits [] part))) := by
  unfold aaPosFromHgvsp
  simp only [Option.getD_some]
  rw [if_neg ht, hsub]

theorem aaPos_none_of_no_occurrence (t : String) (ht : ¬(t = ""))
    (hsub : afterSub ['p', '.'] t.data = none) :
    aaPosFromHgvsp (some t) = none := by
  unfold aaPosFromHgvsp
  simp only [Option.getD_some]
  rw [if_neg ht, hsub]

/-- C9, counterexample: the claimed explicit-field-then-HGVS-scan
fallback does not exist in the code.  On a summary with no explicit
`protein_pos` and protein HGVS text `"p.Val752Met"`, the digit-run scan
would parse position 752 (so the claimed policy resolves 752), but the
position panel (app.py line 823) reports the position unavailable: it
never scans the HGVS text when the explicit field is absent. -/
theorem protein_position_no_scan_fallback :
    aaPosFromHgvsp (some "p.Val752Met") = some 752 ∧
    renderSinglePos none (some "p.Val752Met") ≠ some 752 := by
  decide

/-- C9, amended: the explicit numeric protein-coordinate field is the
only position the dashboard's panel uses — `render_single` shows
`int(protein_pos)` when the field is present and reports the position
unavailable when it is absent, WITHOUT falling back to the HGVS text.
The digit-run scan lives only in the separate, un-invoked
`protein_track_svg` helper: there the protein HGVS text after the first
`"p."` is scanned for the first run of decimal digits, so for a
letters/digits/letters pattern the parsed position equals the embedded
digit run, and any parse failure (no text, no `"p."`, no digits) yields
`none` — never zero. -/
theorem protein_position_resolution_amended :
    (∀ (q : ℚ) (h : Option String), renderSinglePos (some q) h = some (pyInt q)) ∧
    (∀ h : Option String, renderSinglePos none h = none) ∧
    (∀ code1 ds code2 : List Char,
      (∀ c ∈ code1, c.isDigit = false) → ds ≠ [] →
      (∀ c ∈ ds, c.isDigit = true) → (∀ c ∈ code2, c.isDigit = false) →
      aaPosFromHgvsp (some (String.mk ('p' :: '.' :: (code1 ++ ds ++ code2))))
        = some (digitsToNat ds)) ∧
    aaPosFromHgvsp (some "ENSP00000368717.4:p.Val752Met") = some 752 ∧
    aaPosFromHgvsp none = none ∧
    aaPosFromHgvsp (some "") = none ∧
    (∀ s : String, (∀ c ∈ s.data, c.isDigit = false) →
      aaPosFromHgvsp (some s) = none) := by
  refine ⟨fun q h => rfl, fun h => rfl, ?_, by decide, rfl, rfl, ?_⟩
  · intro code1 ds code2 h1 hne h2 h3
    have hsplit : afterSub ['p', '.'] ('p' :: '.' :: (code1 ++ ds ++ code2))
        = some (code1 ++ ds ++ code2) := afterSub_self_leading ['p', '.'] _ (by simp)
    have hscan : scanDigits [] (code1 ++ ds ++ code2) = ds := by
      rw [List.append_assoc, scanDigits_nondigit_lead code1 (ds ++ code2) h1]
      have := scanDigits_digit_run ds code2 [] h2
        (fun c hc => h3 c (List.mem_of_mem_take hc)) (by simpa using hne)
      simpa using this
    rw [aaPos_scan_eq (String.mk ('p' :: '.' :: (code1 ++ ds ++ code2)))
      (by simp [String.ext_iff]) (code1 ++ ds ++ code2) hsplit]
    rw [hscan, if_neg (by simpa using hne)]
  · intro s hs
    by_cases hempty : s = ""
    · subst hempty
      rfl
    · cases hsub : afterSub ['p', '.'] s.data with
      | none => exact aaPos_none_of_no_occurrence s hempty hsub
      | some part =>
        rw [aaPos_scan_eq s hempty part hsub]
        rw [scanDigits_of_all_nondigit part
          (fun c hc => hs c (afterSub_subset ['p', '.'] s.data part hsub c hc))]
        rfl

/-- C9, witness: the scan clause of the amended theorem applied at the
pattern `p.Val752Met`, and the failure clause at a digit-free string. -/
theorem protein_position_resolution_amended_witness :
    aaPosFromHgvsp (some "p.Val752Met") = some 752 ∧
    aaPosFromHgvsp (some "p.ValMet") = none := by
  constructor
  · have h := protein_position_resolution_amended.2.2.1
      ['V', 'a', 'l'] ['7', '5', '2'] ['M', 'e', 't']
      (by decide) (by decide) (by decide) (by decide)
    simpa using h
  · exact protein_position_resolution_amended.2.2.2.2.2.2 "p.ValMet" (by decide)

/-! ### Claim C10 -/

/-- C10: when the joined clinical-significance text contains a
"pathogenic" token, the ClinVar source is assessed Pathogenic — the
pathogenic-token check runs first, so it wins even when a "benign" token
is also present; the benign-token check runs second, and any other
non-empty text is assessed Uncertain.  Concretely, the summary reporting
both "pathogenic" and "benign" yields exactly one ClinVar row, assessed
Pathogenic. -/
theorem clinvar_pathogenic_token_precedence :
    (∀ (s : AggInput) (st : AggState),
      strContains (pyLower (String.intercalate ", " s.clinvar_significance))
          "pathogenic" = true →
      clinvarBlock s st = ⟨st.p + 1, st.u, st.b, st.w ++
        [⟨"ClinVar", String.intercalate ", " s.clinvar_significance,
          "Reported pathogenic/likely pathogenic", .Pathogenic⟩]⟩) ∧
    (∀ (s : AggInput) (st : AggState),
      strContains (pyLower (String.intercalate ", " s.clinvar_significance))
          "pathogenic" = false →
      strContains (pyLower (String.intercalate ", " s.clinvar_significance))
          "likely_pathogenic" = false →
      strContains (pyLower (String.intercalate ", " s.clinvar_significance))
          "benign" = true →
      clinvarBlock s st = ⟨st.p, st.u, st.b + 1, st.w ++
        [⟨"ClinVar", String.intercalate ", " s.clinvar_significance,
          "Reported benign/likely benign", .Benign⟩]⟩) ∧
    (∀ (s : AggInput) (st : AggState),
      strContains (pyLower (String.intercalate ", " s.clinvar_significance))
          "pathogenic" = false →
      strContains (pyLower (String.intercalate ", " s.clinvar_significance))
          "likely_pathogenic" = false →
      strContains (pyLower (String.intercalate ", " s.clinvar_significance))
          "benign" = false →
      strContains (pyLower (String.intercalate ", " s.clinvar_significance))
          "likely_benign" = false →
      ¬(String.intercalate ", " s.clinvar_significance = "") →
      clinvarBlock s st = ⟨st.p, st.u + 1, st.b, st.w ++
        [⟨"ClinVar", String.intercalate ", " s.clinvar_significance,
          "Other/conflicting", .Uncertain⟩]⟩) ∧
    computePathogenicityIndex conflictClinInput defaultPriors
      = ⟨1, 0, 0, [⟨"ClinVar", "pathogenic, benign",
          "Reported pathogenic/likely pathogenic", .Pathogenic⟩]⟩ := by
  refine ⟨?_, ?_, ?_, by decide⟩
  · intro s st hp
    unfold clinvarBlock
    rw [if_pos (by simp [hp])]
  · intro s st hp hlp hb
    unfold clinvarBlock
    rw [if_neg (by simp [hp, hlp]), if_pos (by simp [hb])]
  · intro s st hp hlp hb hlb hne
    unfold clinvarBlock
    rw [if_neg (by simp [hp, hlp]), if_neg (by simp [hb, hlb]),
      if_pos (by simpa using hne)]

/-- C10, witness: the pathogenic-precedence clause applied at the summary
carrying both tokens. -/
theorem clinvar_pathogenic_token_precedence_witness :
    clinvarBlock conflictClinInput (AggState.mk 0 0 0 [])
      = ⟨1, 0, 0, [⟨"ClinVar", "pathogenic, benign",
          "Reported pathogenic/likely pathogenic", .Pathogenic⟩]⟩ := by
  have h := clinvar_pathogenic_token_precedence.1 conflictClinInput
    (AggState.mk 0 0 0 []) (by decide)
  rw [h]
  decide

end VariantIntel
